import Mathlib

/-!
Shallow embedding of the crawl orchestration core of `src/scraper.py`
(map_scrapper): grid planning, haversine geofencing, link canonicalisation
and deduplication, per-task error handling and the append-only CSV sink.

Python floats are modelled as rationals (`ℚ`) for the grid / dedup layer and
as reals (`ℝ`) for the trigonometric distance computation; Python strings are
Lean `String`s.  The asyncio worker pool is cooperative and never awaits
between the membership check on `seen_links` and the insertion, so the
check-and-insert is atomic; a run is therefore modelled as the sequence of
worker tasks in claim order: each task claims its discovered items against
the single shared set and accumulates its `new_rows` batch, and then either
persists the whole batch or — when the body raises between a claim and the
batch write and the broad per-task handler swallows it — persists none of
it while the claims it already made remain in the shared set.
-/

namespace Scraper

/-- `STEP_SIZE = 0.025` from `scraper.py` line 23 (≈2.5 km grid step). -/
def STEP_SIZE : ℚ := 0.025

/-- The 13 keywords from `scraper.py` lines 15-20. -/
def KEYWORDS : List String :=
  ["Banque", "Bank", "Attijariwafa", "Banque Populaire",
   "Bank of Africa", "BMCE", "BMCI", "CIH",
   "Crédit Agricole", "Crédit du Maroc", "Société Générale",
   "Al Barid", "CFG Bank"]

/-- Python `int()` on a rational: truncation toward zero. -/
def pythonInt (q : ℚ) : ℤ :=
  if q < 0 then ⌈q⌉ else ⌊q⌋

/-- An area descriptor as read from `morocco_cities.json`: fields
`city`, `lat`, `lng` and an optional `population`. -/
structure City where
  city : String
  lat : ℚ
  lng : ℚ
  population : Option ℚ
deriving DecidableEq

/-- `city_data.get('population', 50000)` from `scraper.py` line 41. -/
def popOf (c : City) : ℚ := c.population.getD 50000

/-- `radius_km = min(15, max(4, int(pop / 100000)))`, `scraper.py` line 43. -/
def radius_km (pop : ℚ) : ℤ :=
  min 15 (max 4 (pythonInt (pop / 100000)))

/-- `lat_range = radius_km / 111`, `scraper.py` line 44. -/
def lat_range (c : City) : ℚ := (radius_km (popOf c) : ℚ) / 111

/-- `lng_range = radius_km / 90`, `scraper.py` line 45. -/
def lng_range (c : City) : ℚ := (radius_km (popOf c) : ℚ) / 90

/-- The spec's wording for the radius: `clamp(population/100000, min 4,
max 15)` on the *untruncated* ratio.  Kept separate from `radius_km`, which
is translated from the source, so the two can be compared. -/
def radiusSpec (pop : ℚ) : ℚ :=
  min 15 (max 4 (pop / 100000))

lemma STEP_SIZE_pos : 0 < STEP_SIZE := by norm_num [STEP_SIZE]

lemma STEP_SIZE_ne : STEP_SIZE ≠ 0 := by norm_num [STEP_SIZE]

lemma step_shift (curr stop : ℚ) :
    (stop - (curr + STEP_SIZE)) / STEP_SIZE = (stop - curr) / STEP_SIZE - 1 := by
  rw [show stop - (curr + STEP_SIZE) = stop - curr - STEP_SIZE from by ring,
    sub_div, div_self STEP_SIZE_ne]

/-- One `while curr <= stop:` loop from `generate_grid` (`scraper.py`
lines 53-58): emit `curr` and advance by `STEP_SIZE` until `curr > stop`. -/
def gridSteps (curr stop : ℚ) : List ℚ :=
  if curr ≤ stop then curr :: gridSteps (curr + STEP_SIZE) stop else []
termination_by (⌊(stop - curr) / STEP_SIZE⌋ + 1).toNat
decreasing_by
  have hs : (0 : ℚ) < STEP_SIZE := STEP_SIZE_pos
  have h1 : ⌊(stop - (curr + STEP_SIZE)) / STEP_SIZE⌋
      = ⌊(stop - curr) / STEP_SIZE⌋ - 1 := by
    rw [step_shift, Int.floor_sub_one]
  have h2 : 0 ≤ ⌊(stop - curr) / STEP_SIZE⌋ :=
    Int.floor_nonneg.mpr (div_nonneg (by linarith) (le_of_lt hs))
  omega

/-- Fuel-indexed version of `gridSteps`, used to evaluate the loop on
concrete inputs; `gridSteps_eq_fuel` shows it agrees with `gridSteps`
whenever the fuel covers the iteration count. -/
def gridStepsFuel : Nat → ℚ → ℚ → List ℚ
  | 0, _, _ => []
  | fuel + 1, curr, stop =>
      if curr ≤ stop then curr :: gridStepsFuel fuel (curr + STEP_SIZE) stop
      else []

lemma gridSteps_eq_fuel :
    ∀ (fuel : Nat) (curr stop : ℚ),
      (⌊(stop - curr) / STEP_SIZE⌋ + 1).toNat ≤ fuel →
      gridSteps curr stop = gridStepsFuel fuel curr stop := by
  intro fuel
  induction fuel with
  | zero =>
      intro curr stop hf
      have h1 : ⌊(stop - curr) / STEP_SIZE⌋ ≤ -1 := by omega
      have h2 : ¬ curr ≤ stop := by
        intro hle
        have : 0 ≤ ⌊(stop - curr) / STEP_SIZE⌋ :=
          Int.floor_nonneg.mpr
            (div_nonneg (by linarith) (le_of_lt STEP_SIZE_pos))
        omega
      rw [gridSteps, if_neg h2]
      rfl
  | succ fuel ih =>
      intro curr stop hf
      rw [gridSteps]
      by_cases h : curr ≤ stop
      · have h1 : ⌊(stop - (curr + STEP_SIZE)) / STEP_SIZE⌋
            = ⌊(stop - curr) / STEP_SIZE⌋ - 1 := by
          rw [step_shift, Int.floor_sub_one]
        have h2 : 0 ≤ ⌊(stop - curr) / STEP_SIZE⌋ :=
          Int.floor_nonneg.mpr
            (div_nonneg (by linarith) (le_of_lt STEP_SIZE_pos))
        have hrec := ih (curr + STEP_SIZE) stop (by omega)
        simp [h, gridStepsFuel, hrec]
      · simp [h, gridStepsFuel]

/-- `generate_grid` (`scraper.py` lines 38-59): row-major lattice of
(lat, lng) points, latitude outer loop, longitude inner loop. -/
def generate_grid (c : City) : List (ℚ × ℚ) :=
  (gridSteps (c.lat - lat_range c) (c.lat + lat_range c)).flatMap
    (fun la =>
      (gridSteps (c.lng - lng_range c) (c.lng + lng_range c)).map
        (fun lo => (la, lo)))

/-- Task materialisation from `main` (`scraper.py` lines 277-279): the
cartesian product of the grid with `KEYWORDS`. -/
def buildTasks (c : City) : List (ℚ × ℚ × String × String) :=
  (generate_grid c).flatMap
    (fun p => KEYWORDS.map (fun kw => (p.1, p.2, c.city, kw)))

lemma mem_gridStepsFuel :
    ∀ (fuel : Nat) (curr stop x : ℚ),
      x ∈ gridStepsFuel fuel curr stop → curr ≤ x ∧ x ≤ stop := by
  intro fuel
  induction fuel with
  | zero => intro curr stop x hx; simp [gridStepsFuel] at hx
  | succ fuel ih =>
      intro curr stop x hx
      by_cases h : curr ≤ stop
      · simp [gridStepsFuel, h] at hx
        rcases hx with rfl | hx
        · exact ⟨le_refl x, h⟩
        · have := ih (curr + STEP_SIZE) stop x hx
          have hs := STEP_SIZE_pos
          constructor <;> linarith [this.1, this.2]
      · simp [gridStepsFuel, h] at hx

lemma mem_gridSteps {curr stop x : ℚ} (hx : x ∈ gridSteps curr stop) :
    curr ≤ x ∧ x ≤ stop := by
  rw [gridSteps_eq_fuel ((⌊(stop - curr) / STEP_SIZE⌋ + 1).toNat)
    curr stop le_rfl] at hx
  exact mem_gridStepsFuel _ curr stop x hx

/-- `math.radians(x) = x * π / 180`. -/
noncomputable def radians (x : ℝ) : ℝ := x * (Real.pi / 180)

open Classical in
/-- `math.atan2(y, x)`: the standard two-argument arctangent. -/
noncomputable def atan2 (y x : ℝ) : ℝ :=
  if 0 < x then Real.arctan (y / x)
  else if x < 0 ∧ 0 ≤ y then Real.arctan (y / x) + Real.pi
  else if x < 0 ∧ y < 0 then Real.arctan (y / x) - Real.pi
  else if x = 0 ∧ 0 < y then Real.pi / 2
  else if x = 0 ∧ y < 0 then -(Real.pi / 2)
  else 0

/-- The haversine intermediate `a` from `calculate_distance`
(`scraper.py` lines 67-70). -/
noncomputable def hav_a (lat1 lon1 lat2 lon2 : ℝ) : ℝ :=
  Real.sin (radians (lat2 - lat1) / 2) * Real.sin (radians (lat2 - lat1) / 2)
    + Real.cos (radians lat1) * Real.cos (radians lat2)
      * Real.sin (radians (lon2 - lon1) / 2)
      * Real.sin (radians (lon2 - lon1) / 2)

/-- `calculate_distance` (`scraper.py` lines 61-72): great-circle distance
in km, `R * c` with `R = 6371` and `c = 2 * atan2(sqrt a, sqrt (1 - a))`. -/
noncomputable def calculate_distance (lat1 lon1 lat2 lon2 : ℝ) : ℝ :=
  6371 * (2 * atan2 (Real.sqrt (hav_a lat1 lon1 lat2 lon2))
    (Real.sqrt (1 - hav_a lat1 lon1 lat2 lon2)))

lemma radians_neg (x : ℝ) : radians (-x) = -(radians x) := by
  unfold radians
  ring

lemma hav_a_symm (lat1 lon1 lat2 lon2 : ℝ) :
    hav_a lat2 lon2 lat1 lon1 = hav_a lat1 lon1 lat2 lon2 := by
  unfold hav_a
  have e1 : lat1 - lat2 = -(lat2 - lat1) := by ring
  have e2 : lon1 - lon2 = -(lon2 - lon1) := by ring
  rw [e1, e2, radians_neg, radians_neg]
  simp only [neg_div, Real.sin_neg]
  ring

lemma hav_a_self (lat lon : ℝ) : hav_a lat lon lat lon = 0 := by
  unfold hav_a
  simp [sub_self, radians, Real.sin_zero]

lemma calculate_distance_self (lat lon : ℝ) :
    calculate_distance lat lon lat lon = 0 := by
  unfold calculate_distance
  rw [hav_a_self]
  rw [Real.sqrt_zero, sub_zero, Real.sqrt_one]
  unfold atan2
  rw [if_pos one_pos]
  simp [Real.arctan_zero]

/-- A raw DOM result card as returned by the `page.evaluate` block in
`scrape_sector` (`scraper.py` lines 138-148): inner text, the link's
aria-label, and the link's href (each `""` when absent). -/
structure Elem where
  text : String
  aria : String
  href : String
deriving DecidableEq

/-- Python `s.split(sep)[0]` for a non-empty separator: the prefix of `s`
before the first occurrence of `sep` (all of `s` when `sep` is absent). -/
def takeBefore (s sep : List Char) : List Char :=
  match s with
  | [] => []
  | c :: rest => if sep.isPrefixOf (c :: rest) then [] else c :: takeBefore rest sep

/-- `re.sub(r'[-]', '', s)`: drop private-use glyph characters. -/
def stripPUA (cs : List Char) : List Char :=
  cs.filter (fun c => !(0xE000 ≤ c.toNat && c.toNat ≤ 0xF8FF))

/-- Python `str.strip()`: drop leading and trailing whitespace. -/
def pyStrip (cs : List Char) : List Char :=
  ((cs.dropWhile Char.isWhitespace).reverse.dropWhile Char.isWhitespace).reverse

/-- Name extraction from `scrape_sector` (`scraper.py` lines 153-163):
split the aria-label at rating separators, fall back to the first line of
the card text when that yields nothing, then strip icons and whitespace. -/
def extractName (el : Elem) : String :=
  let base : List Char :=
    if el.aria ≠ "" then
      takeBefore (takeBefore (takeBefore (takeBefore el.aria.data
        (" · ".data)) (" 4.".data)) (" 3.".data)) (" 5.".data)
    else []
  let base2 : List Char :=
    if base = [] then takeBefore el.text.data ("\n".data) else base
  String.mk (pyStrip (stripPUA base2))

/-- `href.split('?')[0]` (`scraper.py` line 183): the canonical dedup key,
the href truncated at the first question mark. -/
def linkKey (s : String) : String :=
  String.mk (s.data.takeWhile (fun c => c ≠ '?'))

def digitVal (c : Char) : ℕ := c.toNat - '0'.toNat

def digitsToNat (ds : List Char) : ℕ :=
  ds.foldl (fun acc c => 10 * acc + digitVal c) 0

/-- One capture group `-?\d+\.\d+` (maximal munch; no backtracking is ever
needed since a digit, `.` and `!` are pairwise disjoint): the parsed decimal
value and the unconsumed remainder. -/
def parseDecimal (cs : List Char) : Option (ℚ × List Char) :=
  let state : Bool × List Char :=
    match cs with
    | '-' :: rest => (true, rest)
    | _ => (false, cs)
  let ip := state.2.takeWhile Char.isDigit
  let cs2 := state.2.dropWhile Char.isDigit
  if ip = [] then none
  else
    match cs2 with
    | '.' :: cs3 =>
        let fp := cs3.takeWhile Char.isDigit
        let cs4 := cs3.dropWhile Char.isDigit
        if fp = [] then none
        else
          let mag : ℚ := (digitsToNat ip : ℚ) + (digitsToNat fp : ℚ) / ((10 : ℚ) ^ fp.length)
          some (if state.1 then -mag else mag, cs4)
    | _ => none

/-- Match `!3d(-?\d+\.\d+)!4d(-?\d+\.\d+)` at the head of the character
list, returning the two captured coordinates. -/
def matchCoords (cs : List Char) : Option (ℚ × ℚ) :=
  match cs with
  | '!' :: '3' :: 'd' :: rest =>
      match parseDecimal rest with
      | some (la, rest2) =>
          match rest2 with
          | '!' :: '4' :: 'd' :: rest3 =>
              match parseDecimal rest3 with
              | some (lo, _) => some (la, lo)
              | none => none
          | _ => none
      | none => none
  | _ => none

/-- `re.search`: leftmost match of the coordinate pattern. -/
def searchCoords : List Char → Option (ℚ × ℚ)
  | [] => none
  | c :: rest =>
      match matchCoords (c :: rest) with
      | some p => some p
      | none => searchCoords rest

/-- `re.search(r'!3d(-?\d+\.\d+)!4d(-?\d+\.\d+)', href)`
(`scraper.py` line 165). -/
def parseCoords (s : String) : Option (ℚ × ℚ) := searchCoords s.data

/-- One entry of the `results` list built by `scrape_sector`
(`scraper.py` lines 179-184). -/
structure SectorResult where
  name : String
  lat : ℚ
  lng : ℚ
  link : String
deriving DecidableEq

open Classical in
/-- Per-element processing of the `for el in elements:` loop in
`scrape_sector` (`scraper.py` lines 150-184): skip empty hrefs, extract the
name, parse coordinates from the href, apply the 6 km geofence when
coordinates are present, otherwise fall back to the cell's coordinates. -/
noncomputable def processElement (lat lng : ℚ) (el : Elem) : Option SectorResult :=
  if el.href = "" then none
  else
    match parseCoords el.href with
    | some (flat, flng) =>
        if calculate_distance (lat : ℝ) (lng : ℝ) (flat : ℝ) (flng : ℝ) > 6
        then none
        else some ⟨extractName el, flat, flng, linkKey el.href⟩
    | none => some ⟨extractName el, lat, lng, linkKey el.href⟩

/-- The full result list of one `scrape_sector` call. -/
noncomputable def scrape_sector (lat lng : ℚ) (elements : List Elem) : List SectorResult :=
  elements.filterMap (fun el => processElement lat lng el)

/-- One row as persisted to the CSV sink (`scraper.py` lines 230-237). -/
structure Row where
  name : String
  city : String
  address : String
  lat : ℚ
  lng : ℚ
  link : String
deriving DecidableEq

/-- The claim step of `worker` for one discovered item (`scraper.py`
lines 221-237): `if link and link not in seen_links:` insert the link and
build the enriched row, else drop the item.  The address returned by
`get_place_details` (an external collaborator) is passed in as `addr`.
There is no `await` between the membership check and the insertion, so the
step is atomic under the cooperative scheduler. -/
def workerStep (city : String) (seen : List String) (item : SectorResult)
    (addr : String) : List String × Option Row :=
  if item.link ≠ "" ∧ item.link ∉ seen then
    (item.link :: seen, some ⟨item.name, city, addr, item.lat, item.lng, item.link⟩)
  else (seen, none)

/-- The `for item in discovered_banks:` loop of one task (`scraper.py`
lines 220-237): every discovered item passes through `workerStep` against
the single shared `seen_links` set (claims mutate it immediately), and the
rows built for successful claims accumulate in the task's `new_rows`.
Returns the seen set after the loop and the accumulated batch. -/
def processItems (city : String) :
    List String → List (SectorResult × String) → List String × List Row
  | seen, [] => (seen, [])
  | seen, ia :: rest =>
      let s := workerStep city seen ia.1 ia.2
      let r := processItems city s.1 rest
      (r.1, s.2.toList ++ r.2)

/-- One whole worker task (`scraper.py` lines 217-254).  On the success
path (`fail = none`) the loop runs to completion and `df.to_csv` persists
the batch.  The body can also raise after any prefix of the items — a dead
page inside `get_place_details` (its `context.new_page()` sits outside its
own try), or `df.to_csv` itself (the persistence failure of C6, with
`fail = some k` for `k ≥` the item count) — and `except Exception: pass`
swallows it: the claims already made stay in `seen_links`, but not one row
of the task's batch is persisted. -/
def runTask (city : String) (seen : List String)
    (items : List (SectorResult × String)) : Option ℕ → List String × List Row
  | none => processItems city seen items
  | some k => ((processItems city seen (items.take k)).1, [])

/-- A run: the tasks in claim order, threading the shared `seen_links` set,
concatenating the persisted batches.  Each task carries its failure point
(`none` for a task whose batch reached the sink). -/
def runTasks (city : String) :
    List String → List (List (SectorResult × String) × Option ℕ)
      → List String × List Row
  | seen, [] => (seen, [])
  | seen, t :: ts =>
      let r1 := runTask city seen t.1 t.2
      let r2 := runTasks city r1.1 ts
      (r2.1, r1.2 ++ r2.2)

/-- Startup seeding (`scraper.py` lines 261-264): re-read the sink's `Link`
column.  The sink is modelled as the list of persisted rows. -/
def seedFromSink (rows : List Row) : List String :=
  rows.map (fun row => row.link)

/-- The state of the output CSV: whether the file is on disk, and how many
headers and data rows were written during this run. -/
structure FileState where
  onDisk : Bool
  headers : ℕ
  dataRows : ℕ
deriving DecidableEq

/-- One persistence step of `worker` (`scraper.py` lines 239-245): guarded
by `if new_rows:`, re-check `os.path.isfile` and append with
`header = not os.path.isfile(OUTPUT_FILE)`; `to_csv(mode='a')` creates the
file when missing. -/
def writeRows (s : FileState) (n : ℕ) : FileState :=
  if n = 0 then s
  else
    { onDisk := true
      headers := s.headers + (if s.onDisk then 0 else 1)
      dataRows := s.dataRows + n }

/-- The run's successive persistence calls, as batch sizes. -/
def runWrites (s : FileState) (batches : List ℕ) : FileState :=
  batches.foldl writeRows s

/-- The sink state at process start: the file exists or not, nothing
written yet by this run. -/
def initFile (ex : Bool) : FileState := ⟨ex, 0, 0⟩

/-- The two failure kinds §7 of the spec distinguishes at the worker level:
a transient fetch failure and a sink write (persistence) failure. -/
inductive TaskFailure
  | transientFetch
  | persistence
deriving DecidableEq

/-- The observable per-task outcome: rows that reached the sink, and
whether a failure was surfaced (logged loudly / escalated) distinctly. -/
structure TaskEffect where
  rows : List Row
  surfaced : Bool
deriving DecidableEq

/-- The `try/except Exception: pass` wrapping the whole task body in
`worker` (`scraper.py` lines 217-251): a successful body persists its rows;
*any* raised failure — transient fetch or persistence alike — is swallowed,
nothing is persisted and nothing is surfaced. -/
def workerCatch (body : Except TaskFailure (List Row)) : TaskEffect :=
  match body with
  | .ok rows => ⟨rows, false⟩
  | .error _ => ⟨[], false⟩

lemma writeRows_onDisk_headers (s : FileState) (n : ℕ) (hs : s.onDisk = true) :
    (writeRows s n).headers = s.headers := by
  unfold writeRows
  split_ifs with h
  · rfl
  · simp [hs]

lemma writeRows_onDisk_mono (s : FileState) (n : ℕ) (hs : s.onDisk = true) :
    (writeRows s n).onDisk = true := by
  unfold writeRows
  split_ifs with h
  · exact hs
  · rfl

lemma runWrites_onDisk (batches : List ℕ) :
    ∀ s : FileState, s.onDisk = true →
      (runWrites s batches).headers = s.headers ∧
      (runWrites s batches).onDisk = true := by
  induction batches with
  | nil => intro s hs; exact ⟨rfl, hs⟩
  | cons b bs ih =>
      intro s hs
      have hstep : runWrites s (b :: bs) = runWrites (writeRows s b) bs := rfl
      have h1 := writeRows_onDisk_mono s b hs
      have h2 := writeRows_onDisk_headers s b hs
      have h3 := ih (writeRows s b) h1
      rw [hstep, h3.1, h2]
      exact ⟨rfl, h3.2⟩

lemma runWrites_fresh (batches : List ℕ) :
    ∀ h0 r : ℕ,
      (runWrites ⟨false, h0, r⟩ batches).headers
        = h0 + (if batches.any (fun n => n ≠ 0) then 1 else 0) := by
  induction batches with
  | nil => intro h0 r; simp [runWrites]
  | cons b bs ih =>
      intro h0 r
      have hstep : runWrites ⟨false, h0, r⟩ (b :: bs)
          = runWrites (writeRows ⟨false, h0, r⟩ b) bs := rfl
      by_cases hb : b = 0
      · subst hb
        have : writeRows ⟨false, h0, r⟩ 0 = ⟨false, h0, r⟩ := rfl
        rw [hstep, this, ih h0 r]
        simp
      · have hw : writeRows ⟨false, h0, r⟩ b = ⟨true, h0 + 1, r + b⟩ := by
          simp [writeRows, hb]
        rw [hstep, hw, (runWrites_onDisk bs ⟨true, h0 + 1, r + b⟩ rfl).1]
        simp [hb]

/-- **C7.** The column header is written to the output destination exactly
once per destination, and only if the destination did not already exist at
startup: a run starting against an existing file writes no header at all,
and otherwise exactly one header is written (by the first non-empty batch,
which creates the file) while every subsequent write — including all writes
of resumed runs, which start with the file on disk — appends rows without a
header. -/
theorem c7_header_once (ex : Bool) (batches : List ℕ) :
    (runWrites (initFile ex) batches).headers
      = (if ex = false ∧ batches.any (fun n => n ≠ 0) = true then 1 else 0) ∧
    ∀ (s : FileState) (n : ℕ), s.onDisk = true →
      (writeRows s n).headers = s.headers := by
  constructor
  · cases ex with
    | true =>
        rw [(runWrites_onDisk batches (initFile true) rfl).1]
        simp [initFile]
    | false =>
        have : initFile false = (⟨false, 0, 0⟩ : FileState) := rfl
        rw [this, runWrites_fresh batches 0 0]
        by_cases hb : batches.any (fun n => n ≠ 0)
        · simp [hb]
        · simp [hb]
  · intro s n hs
    exact writeRows_onDisk_headers s n hs

/-- Witness for C7: a fresh destination with two non-empty batches gets
exactly one header, and a write against an on-disk file adds none. -/
theorem c7_witness :
    (runWrites (initFile false) [2, 3]).headers
      = (if false = false ∧ ([2, 3].any (fun n => n ≠ 0)) = true then 1 else 0) ∧
    (writeRows ⟨true, 1, 5⟩ 2).headers = (⟨true, 1, 5⟩ : FileState).headers :=
  ⟨(c7_header_once false [2, 3]).1,
   (c7_header_once false [2, 3]).2 ⟨true, 1, 5⟩ 2 rfl⟩

/-- **C6, counterexample.** The claim says a sink write failure is surfaced
rather than handled identically to a transient fetch failure.  In the code
both are swallowed by the same `except Exception: pass` at task level
(`scraper.py` lines 250-251): the observable outcomes coincide and nothing
is surfaced. -/
theorem c6_counterexample :
    workerCatch (Except.error TaskFailure.persistence)
      = workerCatch (Except.error TaskFailure.transientFetch) ∧
    (workerCatch (Except.error TaskFailure.persistence)).surfaced = false :=
  ⟨rfl, rfl⟩

/-- **C6, amended.** Every task-level failure — persistence failure
included — is swallowed by the broad per-task handler: the task persists
nothing and no failure is surfaced or escalated distinctly. -/
theorem c6_failures_swallowed (e : TaskFailure) :
    workerCatch (Except.error e) = ⟨[], false⟩ := rfl

/-- Evaluation helper: `pythonInt q = n` for nonnegative `q` with
`n ≤ q < n + 1`. -/
lemma pythonInt_eval {q : ℚ} {n : ℤ} (h0 : 0 ≤ q) (h1 : (n : ℚ) ≤ q)
    (h2 : q < n + 1) : pythonInt q = n := by
  unfold pythonInt
  rw [if_neg (not_lt.mpr h0)]
  exact Int.floor_eq_iff.mpr ⟨h1, by exact_mod_cast h2⟩

/-- Area used by the C3 counterexample: population 450 000. -/
def areaX : City := ⟨"X", 0, 0, some 450000⟩

/-- **C3, counterexample.** For population 450 000 the code derives radius
`min(15, max(4, int(4.5))) = 4` km, while the claimed
`clamp(population/100000, 4, 15)` on the untruncated ratio is 4.5 km. -/
theorem c3_counterexample :
    ¬ ((radius_km (popOf areaX) : ℚ) = radiusSpec (popOf areaX)) := by
  have hp : popOf areaX = 450000 := rfl
  have hr : radius_km (popOf areaX) = 4 := by
    unfold radius_km
    rw [hp, pythonInt_eval (n := 4) (by norm_num) (by norm_num) (by norm_num),
      max_self, min_eq_right (by norm_num)]
  have hs : radiusSpec (popOf areaX) = 9 / 2 := by
    unfold radiusSpec
    rw [hp, max_eq_right (by norm_num), min_eq_right (by norm_num)]
    norm_num
  rw [hr, hs]
  norm_num

/-- **C3, amended.** For every area descriptor (population defaulting when
absent), the derived radius equals `population/100000` *truncated to an
integer* (a floor, for the nonnegative populations that occur) and then
clamped between 4 and 15. -/
theorem c3_radius_clamped_floor (c : City) (h : 0 ≤ popOf c) :
    (radius_km (popOf c) : ℚ) = min 15 (max 4 (⌊popOf c / 100000⌋ : ℚ)) := by
  unfold radius_km pythonInt
  rw [if_neg (not_lt.mpr (div_nonneg h (by norm_num)))]
  push_cast
  rfl

/-- Witness for C3 (amended) at population 250 000. -/
theorem c3_witness :
    (radius_km (popOf ⟨"W", 0, 0, some 250000⟩) : ℚ)
      = min 15 (max 4 (⌊popOf ⟨"W", 0, 0, some 250000⟩ / 100000⌋ : ℚ)) :=
  c3_radius_clamped_floor ⟨"W", 0, 0, some 250000⟩ (by norm_num [popOf])

/-- **C4.** Every grid cell generated by `generate_grid` lies within
`[center - range, center + range]` on both axes, boundary included. -/
theorem c4_grid_coverage (c : City) (p : ℚ × ℚ) (hp : p ∈ generate_grid c) :
    (c.lat - lat_range c ≤ p.1 ∧ p.1 ≤ c.lat + lat_range c) ∧
    (c.lng - lng_range c ≤ p.2 ∧ p.2 ≤ c.lng + lng_range c) := by
  unfold generate_grid at hp
  rw [List.mem_flatMap] at hp
  obtain ⟨la, hla, hmem⟩ := hp
  rw [List.mem_map] at hmem
  obtain ⟨lo, hlo, rfl⟩ := hmem
  exact ⟨mem_gridSteps hla, mem_gridSteps hlo⟩

/-- City used by the C4 witness (default population 50 000, radius 4 km). -/
def demoCity : City := ⟨"D", 0, 0, none⟩

lemma self_mem_gridSteps {curr stop : ℚ} (h : curr ≤ stop) :
    curr ∈ gridSteps curr stop := by
  rw [gridSteps, if_pos h]
  exact List.mem_cons_self _ _

lemma radius_demo : radius_km (popOf demoCity) = 4 := by
  unfold radius_km
  rw [show popOf demoCity = 50000 from rfl,
    pythonInt_eval (n := 0) (by norm_num) (by norm_num) (by norm_num),
    max_eq_left (by norm_num), min_eq_right (by norm_num)]

lemma demo_lat_le : demoCity.lat - lat_range demoCity
    ≤ demoCity.lat + lat_range demoCity := by
  have h : lat_range demoCity = 4 / 111 := by
    unfold lat_range
    rw [radius_demo]
    norm_num
  rw [h]
  norm_num [demoCity]

lemma demo_lng_le : demoCity.lng - lng_range demoCity
    ≤ demoCity.lng + lng_range demoCity := by
  have h : lng_range demoCity = 4 / 90 := by
    unfold lng_range
    rw [radius_demo]
    norm_num
  rw [h]
  norm_num [demoCity]

/-- Witness for C4: the south-west corner cell of the demo grid. -/
theorem c4_witness :
    (demoCity.lat - lat_range demoCity ≤ demoCity.lat - lat_range demoCity ∧
      demoCity.lat - lat_range demoCity ≤ demoCity.lat + lat_range demoCity) ∧
    (demoCity.lng - lng_range demoCity ≤ demoCity.lng - lng_range demoCity ∧
      demoCity.lng - lng_range demoCity ≤ demoCity.lng + lng_range demoCity) :=
  c4_grid_coverage demoCity
    (demoCity.lat - lat_range demoCity, demoCity.lng - lng_range demoCity)
    (by
      unfold generate_grid
      refine List.mem_flatMap.mpr
        ⟨demoCity.lat - lat_range demoCity, self_mem_gridSteps demo_lat_le, ?_⟩
      exact List.mem_map.mpr
        ⟨demoCity.lng - lng_range demoCity,
          self_mem_gridSteps demo_lng_le, rfl⟩)

/-- The end-to-end scenario area of C5. -/
def casablanca : City := ⟨"Casablanca", 33.57, -7.59, some 3000000⟩

lemma length_flatMap_const {α β : Type} (l : List α) (f : α → List β) (m : ℕ)
    (h : ∀ a ∈ l, (f a).length = m) : (l.flatMap f).length = l.length * m := by
  induction l with
  | nil => simp
  | cons a as ih =>
      rw [List.flatMap_cons, List.length_append, List.length_cons,
        h a (List.mem_cons_self a as),
        ih (fun b hb => h b (List.mem_cons_of_mem a hb))]
      ring

lemma buildTasks_length (c : City) :
    (buildTasks c).length = (generate_grid c).length * 13 := by
  unfold buildTasks
  exact length_flatMap_const _ _ 13 (fun p _ => by simp [KEYWORDS])

lemma radius_casa : radius_km (popOf casablanca) = 15 := by
  unfold radius_km
  rw [show popOf casablanca = 3000000 from rfl,
    pythonInt_eval (n := 30) (by norm_num) (by norm_num) (by norm_num),
    max_eq_right (by norm_num), min_eq_left (by norm_num)]

lemma lat_range_casa : lat_range casablanca = 15 / 111 := by
  unfold lat_range
  rw [radius_casa]
  norm_num

lemma lng_range_casa : lng_range casablanca = 15 / 90 := by
  unfold lng_range
  rw [radius_casa]
  norm_num

lemma casa_lat_row : gridSteps (casablanca.lat - lat_range casablanca)
    (casablanca.lat + lat_range casablanca)
    = gridStepsFuel 20 (casablanca.lat - lat_range casablanca)
      (casablanca.lat + lat_range casablanca) := by
  refine gridSteps_eq_fuel 20 _ _ ?_
  have e : (casablanca.lat + lat_range casablanca
      - (casablanca.lat - lat_range casablanca)) / STEP_SIZE = 400 / 37 := by
    rw [lat_range_casa, show casablanca.lat = 33.57 from rfl]
    norm_num [STEP_SIZE]
  rw [e, show ⌊(400 / 37 : ℚ)⌋ = 10 from Int.floor_eq_iff.mpr (by norm_num)]
  omega

lemma casa_lng_row : gridSteps (casablanca.lng - lng_range casablanca)
    (casablanca.lng + lng_range casablanca)
    = gridStepsFuel 20 (casablanca.lng - lng_range casablanca)
      (casablanca.lng + lng_range casablanca) := by
  refine gridSteps_eq_fuel 20 _ _ ?_
  have e : (casablanca.lng + lng_range casablanca
      - (casablanca.lng - lng_range casablanca)) / STEP_SIZE = 40 / 3 := by
    rw [lng_range_casa, show casablanca.lng = -7.59 from rfl]
    norm_num [STEP_SIZE]
  rw [e, show ⌊(40 / 3 : ℚ)⌋ = 13 from Int.floor_eq_iff.mpr (by norm_num)]
  omega

lemma casa_lat_len : (gridSteps (casablanca.lat - lat_range casablanca)
    (casablanca.lat + lat_range casablanca)).length = 11 := by
  rw [casa_lat_row, lat_range_casa, show casablanca.lat = 33.57 from rfl]
  norm_num [gridStepsFuel, STEP_SIZE]

lemma casa_lng_len : (gridSteps (casablanca.lng - lng_range casablanca)
    (casablanca.lng + lng_range casablanca)).length = 14 := by
  rw [casa_lng_row, lng_range_casa, show casablanca.lng = -7.59 from rfl]
  norm_num [gridStepsFuel, STEP_SIZE]

lemma casa_grid_len : (generate_grid casablanca).length = 154 := by
  unfold generate_grid
  rw [length_flatMap_const _ _ 14
    (fun la _ => by rw [List.length_map]; exact casa_lng_len), casa_lat_len]

/-- **C5.** For the area centred at (33.57, -7.59) with population
3 000 000: the radius clamps to 15 km, the axis ranges are 15/111 ≈ 0.135
and 15/90 ≈ 0.167 degrees, the 0.025-degree grid spans 11 × 14 cells, and
crossing it with the 13-keyword list enqueues 2002 tasks. -/
theorem c5_scenario :
    radius_km (popOf casablanca) = 15 ∧
    lat_range casablanca = 15 / 111 ∧
    lng_range casablanca = 15 / 90 ∧
    |lat_range casablanca - 0.135| < 0.001 ∧
    |lng_range casablanca - 0.167| < 0.001 ∧
    (gridSteps (casablanca.lat - lat_range casablanca)
      (casablanca.lat + lat_range casablanca)).length = 11 ∧
    (gridSteps (casablanca.lng - lng_range casablanca)
      (casablanca.lng + lng_range casablanca)).length = 14 ∧
    (generate_grid casablanca).length = 11 * 14 ∧
    KEYWORDS.length = 13 ∧
    (buildTasks casablanca).length = 2002 := by
  refine ⟨radius_casa, lat_range_casa, lng_range_casa, ?_, ?_,
    casa_lat_len, casa_lng_len, by rw [casa_grid_len], rfl, ?_⟩
  · rw [lat_range_casa, abs_lt]
    norm_num
  · rw [lng_range_casa, abs_lt]
    norm_num
  · rw [buildTasks_length, casa_grid_len]

/-- **C8.** The great-circle distance is symmetric, and a candidate located
exactly at the cell centre yields distance 0, hence is never rejected by the
`dist > 6.0` geofence check. -/
theorem c8_distance_symm_zero :
    (∀ lat1 lon1 lat2 lon2 : ℝ,
      calculate_distance lat1 lon1 lat2 lon2
        = calculate_distance lat2 lon2 lat1 lon1) ∧
    (∀ lat lon : ℝ, calculate_distance lat lon lat lon = 0 ∧
      ¬ (calculate_distance lat lon lat lon > 6)) := by
  constructor
  · intro lat1 lon1 lat2 lon2
    unfold calculate_distance
    rw [hav_a_symm]
  · intro lat lon
    refine ⟨calculate_distance_self lat lon, ?_⟩
    rw [calculate_distance_self lat lon]
    norm_num

/-- Witness for C8 at concrete points. -/
theorem c8_witness :
    calculate_distance 1 2 3 4 = calculate_distance 3 4 1 2 ∧
    calculate_distance 5 6 5 6 = 0 ∧
    ¬ (calculate_distance 5 6 5 6 > 6) :=
  ⟨c8_distance_symm_zero.1 1 2 3 4, (c8_distance_symm_zero.2 5 6).1,
   (c8_distance_symm_zero.2 5 6).2⟩

lemma processElement_none (lat lng : ℚ) (el : Elem) (hhref : el.href ≠ "")
    (hp : parseCoords el.href = none) :
    processElement lat lng el
      = some ⟨extractName el, lat, lng, linkKey el.href⟩ := by
  unfold processElement
  rw [if_neg hhref, hp]

lemma processElement_some (lat lng flat flng : ℚ) (el : Elem)
    (hhref : el.href ≠ "") (hp : parseCoords el.href = some (flat, flng)) :
    processElement lat lng el
      = if calculate_distance (lat : ℝ) (lng : ℝ) (flat : ℝ) (flng : ℝ) > 6
        then none
        else some ⟨extractName el, flat, flng, linkKey el.href⟩ := by
  unfold processElement
  rw [if_neg hhref, hp]

/-- **C2.** Geofence policy per candidate: a candidate without parseable
coordinates is not rejected and is assigned the originating cell's
coordinates; a candidate with coordinates survives (reaches the result list
and hence the dedup store) iff its haversine distance from the cell is at
most the 6 km threshold. -/
theorem c2_geofence_policy (lat lng : ℚ) (el : Elem) (hhref : el.href ≠ "") :
    (parseCoords el.href = none →
      processElement lat lng el
        = some ⟨extractName el, lat, lng, linkKey el.href⟩) ∧
    (∀ flat flng : ℚ, parseCoords el.href = some (flat, flng) →
      ((processElement lat lng el).isSome ↔
        calculate_distance (lat : ℝ) (lng : ℝ) (flat : ℝ) (flng : ℝ) ≤ 6)) := by
  constructor
  · intro hp
    exact processElement_none lat lng el hhref hp
  · intro flat flng hp
    rw [processElement_some lat lng flat flng el hhref hp]
    by_cases hd : calculate_distance (lat : ℝ) (lng : ℝ) (flat : ℝ) (flng : ℝ) > 6
    · rw [if_pos hd]
      exact iff_of_false (by simp) (not_le.mpr hd)
    · rw [if_neg hd]
      exact iff_of_true (by simp) (not_lt.mp hd)

/-- Element used by the C2 witness: a href with no coordinate pattern. -/
def elemTwo : Elem := ⟨"Bank X\nmore", "", "https://maps/place?hl=en"⟩

/-- Witness for C2: a coordinate-less candidate is accepted with the cell's
coordinates. -/
theorem c2_witness :
    processElement 1 2 elemTwo
      = some ⟨extractName elemTwo, 1, 2, linkKey elemTwo.href⟩ :=
  (c2_geofence_policy 1 2 elemTwo (by decide)).1 (by rfl)

/-- **C9.** The persisted `Link` value is exactly the dedup key — the href
truncated at the first question mark — and the startup seeding reads that
same value back: seed and claim round-trip through the sink with no
transformation. -/
theorem c9_link_roundtrip (lat lng : ℚ) (el : Elem) (r : SectorResult)
    (h : processElement lat lng el = some r) :
    r.link = linkKey el.href ∧
    ∀ (city addr : String) (seen : List String) (row : Row),
      (workerStep city seen r addr).2 = some row →
      row.link = linkKey el.href ∧ seedFromSink [row] = [linkKey el.href] := by
  have hl : r.link = linkKey el.href := by
    unfold processElement at h
    by_cases hhref : el.href = ""
    · rw [if_pos hhref] at h
      exact absurd h (by simp)
    · rw [if_neg hhref] at h
      cases hp : parseCoords el.href with
      | none =>
          rw [hp] at h
          have h2 : (⟨extractName el, lat, lng, linkKey el.href⟩ : SectorResult)
              = r := Option.some.inj h
          rw [← h2]
      | some p =>
          obtain ⟨flat, flng⟩ := p
          rw [hp] at h
          have h3 : (if calculate_distance (lat : ℝ) (lng : ℝ) (flat : ℝ)
                (flng : ℝ) > 6 then none
              else some (⟨extractName el, flat, flng, linkKey el.href⟩
                : SectorResult)) = some r := h
          by_cases hd : calculate_distance (lat : ℝ) (lng : ℝ) (flat : ℝ)
              (flng : ℝ) > 6
          · rw [if_pos hd] at h3
            exact absurd h3 (by simp)
          · rw [if_neg hd] at h3
            have h2 := Option.some.inj h3
            rw [← h2]
  refine ⟨hl, ?_⟩
  intro city addr seen row hw
  unfold workerStep at hw
  split_ifs at hw with hc
  have hr := Option.some.inj hw
  rw [← hr]
  exact ⟨hl, by simp [seedFromSink, hl]⟩

def elemNine : Elem := ⟨"Bank Y", "", "https://maps/bank?x=1"⟩

def resNine : SectorResult := ⟨"Bank Y", 3, 4, "https://maps/bank"⟩

def rowNine : Row := ⟨"Bank Y", "C", "ad", 3, 4, "https://maps/bank"⟩

/-- Witness for C9: a concrete candidate round-trips its key through claim,
row and seeding. -/
theorem c9_witness :
    rowNine.link = linkKey elemNine.href ∧
    seedFromSink [rowNine] = [linkKey elemNine.href] :=
  (c9_link_roundtrip 3 4 elemNine resNine (by rfl)).2 "C" "ad" [] rowNine
    (by rfl)

/-- **C10.** An element with an empty href is skipped before name
extraction, geofencing and deduplication, and the worker claims and
persists only items whose link is non-empty: no record lacking a link is
ever claimed or persisted. -/
theorem c10_no_linkless (lat lng : ℚ) (el : Elem) (city addr : String)
    (seen : List String) (item : SectorResult) :
    (el.href = "" → processElement lat lng el = none) ∧
    (∀ row : Row, (workerStep city seen item addr).2 = some row →
      row.link ≠ "") := by
  constructor
  · intro h
    unfold processElement
    rw [if_pos h]
  · intro row hw
    unfold workerStep at hw
    split_ifs at hw with hc
    have hr := Option.some.inj hw
    rw [← hr]
    exact hc.1

/-- Witness for C10: the empty-href element is dropped, and a persisted row
carries a non-empty link. -/
theorem c10_witness :
    processElement 0 0 ⟨"t", "a", ""⟩ = none ∧
    (⟨"n", "C", "ad", 0, 0, "L"⟩ : Row).link ≠ "" :=
  ⟨(c10_no_linkless 0 0 ⟨"t", "a", ""⟩ "C" "ad" [] ⟨"n", 0, 0, "L"⟩).1 rfl,
   (c10_no_linkless 0 0 ⟨"t", "a", ""⟩ "C" "ad" [] ⟨"n", 0, 0, "L"⟩).2
     ⟨"n", "C", "ad", 0, 0, "L"⟩ (by rfl)⟩

lemma workerStep_pos {city : String} {seen : List String} {item : SectorResult}
    {addr : String} (h : item.link ≠ "" ∧ item.link ∉ seen) :
    workerStep city seen item addr
      = (item.link :: seen,
         some ⟨item.name, city, addr, item.lat, item.lng, item.link⟩) := by
  unfold workerStep
  rw [if_pos h]

lemma workerStep_neg {city : String} {seen : List String} {item : SectorResult}
    {addr : String} (h : ¬ (item.link ≠ "" ∧ item.link ∉ seen)) :
    workerStep city seen item addr = (seen, none) := by
  unfold workerStep
  rw [if_neg h]

lemma processItems_snd_cons (city : String) (seen : List String)
    (ia : SectorResult × String) (rest : List (SectorResult × String)) :
    (processItems city seen (ia :: rest)).2
      = (workerStep city seen ia.1 ia.2).2.toList
        ++ (processItems city (workerStep city seen ia.1 ia.2).1 rest).2 := rfl

lemma processItems_fst_cons (city : String) (seen : List String)
    (ia : SectorResult × String) (rest : List (SectorResult × String)) :
    (processItems city seen (ia :: rest)).1
      = (processItems city (workerStep city seen ia.1 ia.2).1 rest).1 := rfl

lemma processItems_emit (city : String) :
    ∀ (items : List (SectorResult × String)) (seen : List String) (row : Row),
      row ∈ (processItems city seen items).2 →
      row.link ∉ seen ∧ row.link ≠ "" := by
  intro items
  induction items with
  | nil => intro seen row h; simp [processItems] at h
  | cons ia rest ih =>
      intro seen row h
      rw [processItems_snd_cons] at h
      by_cases hc : ia.1.link ≠ "" ∧ ia.1.link ∉ seen
      · rw [workerStep_pos hc] at h
        simp only [Option.toList_some, List.singleton_append,
          List.mem_cons] at h
        rcases h with rfl | h
        · exact ⟨hc.2, hc.1⟩
        · have hrec := ih (ia.1.link :: seen) row h
          exact ⟨fun hmem => hrec.1 (List.mem_cons_of_mem _ hmem), hrec.2⟩
      · rw [workerStep_neg hc] at h
        simp only [Option.toList_none, List.nil_append] at h
        exact ih seen row h

lemma processItems_mono (city : String) :
    ∀ (items : List (SectorResult × String)) (seen : List String)
      (L : String), L ∈ seen → L ∈ (processItems city seen items).1 := by
  intro items
  induction items with
  | nil => intro seen L h; simpa [processItems] using h
  | cons ia rest ih =>
      intro seen L h
      rw [processItems_fst_cons]
      by_cases hc : ia.1.link ≠ "" ∧ ia.1.link ∉ seen
      · rw [workerStep_pos hc]
        exact ih (ia.1.link :: seen) L (List.mem_cons_of_mem _ h)
      · rw [workerStep_neg hc]
        exact ih seen L h

lemma processItems_nodup (city : String) :
    ∀ (items : List (SectorResult × String)) (seen : List String),
      ((processItems city seen items).2.map Row.link).Nodup := by
  intro items
  induction items with
  | nil => intro seen; simp [processItems]
  | cons ia rest ih =>
      intro seen
      by_cases hc : ia.1.link ≠ "" ∧ ia.1.link ∉ seen
      · rw [processItems_snd_cons, workerStep_pos hc]
        simp only [Option.toList_some, List.singleton_append, List.map_cons,
          List.nodup_cons]
        constructor
        · intro hmem
          rw [List.mem_map] at hmem
          obtain ⟨row, hrow, hlink⟩ := hmem
          have := (processItems_emit city rest (ia.1.link :: seen) row hrow).1
          exact this (by rw [hlink]; exact List.mem_cons_self _ _)
        · exact ih (ia.1.link :: seen)
      · rw [processItems_snd_cons, workerStep_neg hc]
        simpa using ih seen

lemma processItems_emit_fst (city : String) :
    ∀ (items : List (SectorResult × String)) (seen : List String) (row : Row),
      row ∈ (processItems city seen items).2 →
      row.link ∈ (processItems city seen items).1 := by
  intro items
  induction items with
  | nil => intro seen row h; simp [processItems] at h
  | cons ia rest ih =>
      intro seen row h
      rw [processItems_snd_cons] at h
      rw [processItems_fst_cons]
      by_cases hc : ia.1.link ≠ "" ∧ ia.1.link ∉ seen
      · rw [workerStep_pos hc] at h ⊢
        simp only [Option.toList_some, List.singleton_append,
          List.mem_cons] at h
        rcases h with rfl | h
        · exact processItems_mono city rest (ia.1.link :: seen) _
            (List.mem_cons_self _ _)
        · exact ih (ia.1.link :: seen) row h
      · rw [workerStep_neg hc] at h ⊢
        simp only [Option.toList_none, List.nil_append] at h
        exact ih seen row h

lemma processItems_fst_mem (city : String) :
    ∀ (items : List (SectorResult × String)) (seen : List String)
      (L : String), L ∈ (processItems city seen items).1 →
      L ∈ seen ∨ L ∈ items.map (fun ia => ia.1.link) := by
  intro items
  induction items with
  | nil => intro seen L h; exact Or.inl (by simpa [processItems] using h)
  | cons ia rest ih =>
      intro seen L h
      rw [processItems_fst_cons] at h
      by_cases hc : ia.1.link ≠ "" ∧ ia.1.link ∉ seen
      · rw [workerStep_pos hc] at h
        rcases ih (ia.1.link :: seen) L h with h1 | h1
        · rcases List.mem_cons.mp h1 with h2 | h2
          · exact Or.inr (by rw [List.map_cons, List.mem_cons]; exact Or.inl h2)
          · exact Or.inl h2
        · exact Or.inr (by rw [List.map_cons, List.mem_cons]; exact Or.inr h1)
      · rw [workerStep_neg hc] at h
        rcases ih seen L h with h1 | h1
        · exact Or.inl h1
        · exact Or.inr (by rw [List.map_cons, List.mem_cons]; exact Or.inr h1)

lemma processItems_complete (city : String) :
    ∀ (items : List (SectorResult × String)) (seen : List String)
      (L : String), L ≠ "" → L ∉ seen →
      L ∈ items.map (fun ia => ia.1.link) →
      L ∈ (processItems city seen items).2.map Row.link := by
  intro items
  induction items with
  | nil => intro seen L _ _ h; simp at h
  | cons ia rest ih =>
      intro seen L hne hns hmem
      rw [List.map_cons, List.mem_cons] at hmem
      by_cases heq : L = ia.1.link
      · have hc : ia.1.link ≠ "" ∧ ia.1.link ∉ seen :=
          ⟨by rw [← heq]; exact hne, by rw [← heq]; exact hns⟩
        rw [processItems_snd_cons, workerStep_pos hc]
        simp only [Option.toList_some, List.singleton_append, List.map_cons,
          List.mem_cons]
        exact Or.inl heq
      · have hmem' : L ∈ rest.map (fun ia => ia.1.link) := by
          rcases hmem with h | h
          · exact absurd h heq
          · exact h
        by_cases hc : ia.1.link ≠ "" ∧ ia.1.link ∉ seen
        · rw [processItems_snd_cons, workerStep_pos hc]
          simp only [Option.toList_some, List.singleton_append, List.map_cons,
            List.mem_cons]
          refine Or.inr (ih (ia.1.link :: seen) L hne ?_ hmem')
          intro hL
          rcases List.mem_cons.mp hL with h | h
          · exact heq h
          · exact hns h
        · rw [processItems_snd_cons, workerStep_neg hc]
          simp only [Option.toList_none, List.nil_append]
          exact ih seen L hne hns hmem'

lemma runTask_emit (city : String) (seen : List String)
    (items : List (SectorResult × String)) (f : Option ℕ) (row : Row)
    (h : row ∈ (runTask city seen items f).2) :
    row.link ∉ seen ∧ row.link ≠ "" ∧
      row.link ∈ (runTask city seen items f).1 := by
  cases f with
  | none =>
      have h1 := processItems_emit city items seen row h
      exact ⟨h1.1, h1.2, processItems_emit_fst city items seen row h⟩
  | some k => simp [runTask] at h

lemma runTask_mono (city : String) (seen : List String)
    (items : List (SectorResult × String)) (f : Option ℕ) (L : String)
    (h : L ∈ seen) : L ∈ (runTask city seen items f).1 := by
  cases f with
  | none => exact processItems_mono city items seen L h
  | some k => exact processItems_mono city (items.take k) seen L h

lemma runTask_nodup (city : String) (seen : List String)
    (items : List (SectorResult × String)) (f : Option ℕ) :
    ((runTask city seen items f).2.map Row.link).Nodup := by
  cases f with
  | none => exact processItems_nodup city items seen
  | some k => simp [runTask]

lemma runTask_fst_mem (city : String) (seen : List String)
    (items : List (SectorResult × String)) (f : Option ℕ) (L : String)
    (h : L ∈ (runTask city seen items f).1) :
    L ∈ seen ∨ L ∈ items.map (fun ia => ia.1.link) := by
  cases f with
  | none => exact processItems_fst_mem city items seen L h
  | some k =>
      rcases processItems_fst_mem city (items.take k) seen L h with h1 | h1
      · exact Or.inl h1
      · rw [List.mem_map] at h1
        obtain ⟨ia, hia, hlink⟩ := h1
        exact Or.inr (List.mem_map.mpr ⟨ia, List.take_subset k items hia, hlink⟩)

lemma runTasks_snd_cons (city : String) (seen : List String)
    (t : List (SectorResult × String) × Option ℕ)
    (ts : List (List (SectorResult × String) × Option ℕ)) :
    (runTasks city seen (t :: ts)).2
      = (runTask city seen t.1 t.2).2
        ++ (runTasks city (runTask city seen t.1 t.2).1 ts).2 := rfl

lemma runTasks_fst_cons (city : String) (seen : List String)
    (t : List (SectorResult × String) × Option ℕ)
    (ts : List (List (SectorResult × String) × Option ℕ)) :
    (runTasks city seen (t :: ts)).1
      = (runTasks city (runTask city seen t.1 t.2).1 ts).1 := rfl

lemma runTasks_mono (city : String) :
    ∀ (tasks : List (List (SectorResult × String) × Option ℕ))
      (seen : List String) (L : String),
      L ∈ seen → L ∈ (runTasks city seen tasks).1 := by
  intro tasks
  induction tasks with
  | nil => intro seen L h; simpa [runTasks] using h
  | cons t ts ih =>
      intro seen L h
      rw [runTasks_fst_cons]
      exact ih _ L (runTask_mono city seen t.1 t.2 L h)

lemma runTasks_emit (city : String) :
    ∀ (tasks : List (List (SectorResult × String) × Option ℕ))
      (seen : List String) (row : Row),
      row ∈ (runTasks city seen tasks).2 →
      row.link ∉ seen ∧ row.link ≠ "" := by
  intro tasks
  induction tasks with
  | nil => intro seen row h; simp [runTasks] at h
  | cons t ts ih =>
      intro seen row h
      rw [runTasks_snd_cons, List.mem_append] at h
      rcases h with h | h
      · have h1 := runTask_emit city seen t.1 t.2 row h
        exact ⟨h1.1, h1.2.1⟩
      · have h1 := ih _ row h
        refine ⟨fun hmem => h1.1 ?_, h1.2⟩
        exact runTask_mono city seen t.1 t.2 row.link hmem

lemma runTasks_nodup (city : String) :
    ∀ (tasks : List (List (SectorResult × String) × Option ℕ))
      (seen : List String),
      ((runTasks city seen tasks).2.map Row.link).Nodup := by
  intro tasks
  induction tasks with
  | nil => intro seen; simp [runTasks]
  | cons t ts ih =>
      intro seen
      rw [runTasks_snd_cons, List.map_append, List.nodup_append]
      refine ⟨runTask_nodup city seen t.1 t.2, ih _, ?_⟩
      intro a ha hb
      rw [List.mem_map] at ha hb
      obtain ⟨row1, hrow1, hl1⟩ := ha
      obtain ⟨row2, hrow2, hl2⟩ := hb
      have h1 : a ∈ (runTask city seen t.1 t.2).1 := by
        rw [← hl1]
        exact (runTask_emit city seen t.1 t.2 row1 hrow1).2.2
      have h2 : a ∉ (runTask city seen t.1 t.2).1 := by
        rw [← hl2]
        exact (runTasks_emit city ts _ row2 hrow2).1
      exact h2 h1

lemma runTasks_complete (city : String) :
    ∀ (tasks : List (List (SectorResult × String) × Option ℕ))
      (seen : List String) (L : String),
      (∀ t ∈ tasks, t.2 = (none : Option ℕ)) → L ≠ "" → L ∉ seen →
      L ∈ (tasks.flatMap (fun t => t.1)).map (fun ia => ia.1.link) →
      L ∈ (runTasks city seen tasks).2.map Row.link := by
  intro tasks
  induction tasks with
  | nil => intro seen L _ _ _ h; simp at h
  | cons t ts ih =>
      intro seen L hall hne hns hmem
      have hft : t.2 = (none : Option ℕ) := hall t (List.mem_cons_self t ts)
      have hbatch : runTask city seen t.1 t.2 = processItems city seen t.1 := by
        rw [hft]
        rfl
      rw [List.flatMap_cons, List.map_append, List.mem_append] at hmem
      rw [runTasks_snd_cons, List.map_append, List.mem_append]
      by_cases hhead : L ∈ t.1.map (fun ia => ia.1.link)
      · refine Or.inl ?_
        rw [hbatch]
        exact processItems_complete city t.1 seen L hne hns hhead
      · have hmem' : L ∈ (ts.flatMap (fun t => t.1)).map
            (fun ia => ia.1.link) := by
          rcases hmem with h | h
          · exact absurd h hhead
          · exact h
        have hns1 : L ∉ (runTask city seen t.1 t.2).1 := by
          intro hL
          rcases runTask_fst_mem city seen t.1 t.2 L hL with h | h
          · exact hns h
          · exact hhead h
        exact Or.inr (ih _ L (fun u hu => hall u (List.mem_cons_of_mem t hu))
          hne hns1 hmem')

/-- The run refuting the original C1: two tasks both produce the fresh,
non-empty link `b`; the first claims it and then raises before its batch
write (`some 5` — the body fails at `df.to_csv`, the C6 persistence
failure, after its single item was claimed) and the broad handler swallows
it; the second finds `b` already in `seen_links` and never claims it. -/
def tasksLost : List (List (SectorResult × String) × Option ℕ) :=
  [([(⟨"n1", 0, 0, "b"⟩, "a1")], some 5),
   ([(⟨"n2", 1, 1, "b"⟩, "a2")], none)]

/-- **C1, counterexample.** The claim says a canonical link produced by two
tasks has exactly one record written for it.  In the run `tasksLost`
(empty seed, so `b` is fresh) the link `b` is produced twice, yet zero
records are written for it: the claim before enrichment/persistence plus
the swallowed failure loses the record permanently (spec §4.6
at-most-once). -/
theorem c1_counterexample :
    ((tasksLost.flatMap (fun t => t.1)).map (fun ia => ia.1.link)).count "b"
      = 2 ∧
    ("b" : String) ≠ "" ∧
    ((runTasks "X" [] tasksLost).2.map Row.link).count "b" = 0 := by
  refine ⟨by decide, by decide, by decide⟩

/-- **C1, amended.** Within a single run each dedup key is persisted *at
most* once: the emitted links are pairwise distinct, so a link produced by
two tasks (e.g. overlapping grid cells) is never persisted twice — though
it can be persisted zero times, because a key is claimed before enrichment
and persistence and a swallowed task failure between the claim and the
batch write loses the record (spec §4.6).  A link seeded from a non-empty
prior output is never re-emitted; the seen set only grows (every seeded
link is still present at the end); a record is written only when its link
was non-empty and absent at the moment of the check-and-insert; and on a
run in which no task fails, every fresh non-empty produced key is emitted
exactly once. -/
theorem c1_dedup_at_most_once (city : String) (seed : List String)
    (tasks : List (List (SectorResult × String) × Option ℕ)) :
    ((runTasks city seed tasks).2.map Row.link).Nodup ∧
    (∀ L ∈ seed, L ∉ (runTasks city seed tasks).2.map Row.link) ∧
    (∀ L ∈ seed, L ∈ (runTasks city seed tasks).1) ∧
    (∀ row ∈ (runTasks city seed tasks).2, row.link ∉ seed ∧ row.link ≠ "") ∧
    ((∀ t ∈ tasks, t.2 = (none : Option ℕ)) →
      ∀ L, L ≠ "" → L ∉ seed →
        L ∈ (tasks.flatMap (fun t => t.1)).map (fun ia => ia.1.link) →
        L ∈ (runTasks city seed tasks).2.map Row.link) := by
  refine ⟨runTasks_nodup city tasks seed, ?_, ?_, ?_, ?_⟩
  · intro L hL hmem
    rw [List.mem_map] at hmem
    obtain ⟨row, hrow, hlink⟩ := hmem
    exact (runTasks_emit city tasks seed row hrow).1 (by rw [hlink]; exact hL)
  · intro L hL
    exact runTasks_mono city tasks seed L hL
  · intro row hrow
    exact runTasks_emit city tasks seed row hrow
  · intro hall L h1 h2 h3
    exact runTasks_complete city tasks seed L hall h1 h2 h3

/-- Run for the C1 witness: both tasks succeed; two tasks produce the same
link `b`, and link `a` was already in the prior output. -/
def tasksOk : List (List (SectorResult × String) × Option ℕ) :=
  [([(⟨"n1", 0, 0, "b"⟩, "a1")], none),
   ([(⟨"n2", 1, 1, "b"⟩, "a2"), (⟨"n3", 2, 2, "a"⟩, "a3")], none)]

/-- Witness for C1 (amended): the seeded link `a` is never re-emitted, and
on this failure-free run the twice-produced link `b` is emitted. -/
theorem c1_witness :
    "a" ∉ (runTasks "X" ["a"] tasksOk).2.map Row.link ∧
    "b" ∈ (runTasks "X" ["a"] tasksOk).2.map Row.link :=
  ⟨(c1_dedup_at_most_once "X" ["a"] tasksOk).2.1 "a" (by decide),
   (c1_dedup_at_most_once "X" ["a"] tasksOk).2.2.2.2 (by decide) "b"
     (by decide) (by decide) (by decide)⟩

end Scraper
